import Mathlib

/-!
Shallow embedding of `task/backend/scheduler/treescheduler.go`.

The scheduler keeps a btree of pending firings (`scheduled`), a btree of
in-flight runs (`running`), a side map `nextTime` from task id to next fire
instant, an armed wake time `when` and a one-shot timer.  Both btrees are
modelled as lists sorted by the corresponding `Less` method; google/btree's
`ReplaceOrInsert`, `Delete`, `DeleteMin` and `AscendGreaterOrEqual` become
the sorted-list operations below.  Times are unix seconds (`Int`).  Cancel
functions (`func(ctx context.Context)`) are modelled by opaque numeric tags;
invoking a cancel function is modelled by emitting its tag into a list.
The cron collaborator is external to the core and is modelled as a pure
function; Go's multi-return `Next(t) (time.Time, error)` becomes a pair,
because the call sites read the returned time even when the error is non-nil.
Goroutine scheduling, the mutex, the wait group and the semaphore channel are
not part of the sequential model; one iteration of the dispatch loop and one
run of the per-run waiter goroutine are modelled as pure state transformers.
-/

namespace TreeSched

/-- Task and run identifiers (`type ID uint64` in the scheduler package). -/
abbrev ID := Nat

/-- Opaque tag standing for a recorded cancel function. -/
abbrev CancelTag := Nat

/-- The cron collaborator (`cron.Parsed`): `next t` returns the unix seconds of
the successor instant together with an optional error, mirroring Go's
`Next(t) (time.Time, error)` where the time component is read even on error. -/
structure CronSched where
  next : Int → Int × Option String

/-- Zero value used where Go composite literals omit the `cron` field
(the delete keys built in `Release` and `Schedule`). -/
def zeroCron : CronSched := ⟨fun t => (t, none)⟩

/-- `item` from treescheduler.go lines 283-289: a task in the scheduler.
The Go composite literals that build items never set `offset`, so it is
always the zero value. -/
structure item where
  cron : CronSched
  next : Int
  nonce : Nat
  offset : Int
  id : ID

/-- `item.Less` from treescheduler.go lines 292-295, the order of the
`scheduled` btree. -/
def item.Less (it it2 : item) : Bool :=
  it.next < it2.next || (it.next == it2.next && (it.nonce < it2.nonce || (it.nonce == it2.nonce && it.id < it2.id)))

/-- `runningItem` from treescheduler.go lines 17-21. -/
structure runningItem where
  cancel : CancelTag
  runID : ID
  taskID : ID

/-- `runningItem.Less` from treescheduler.go lines 23-26, the order of the
`running` btree. -/
def runningItem.Less (it it2 : runningItem) : Bool :=
  it.taskID < it2.taskID || (it.taskID == it2.taskID && it.runID < it2.runID)

/-- google/btree `ReplaceOrInsert` on the sorted-list model: insert in order,
replacing an element that is equal under the order (neither less). -/
def btreeReplaceOrInsert {α : Type} (less : α → α → Bool) (x : α) : List α → List α
  | [] => [x]
  | y :: ys =>
    if less x y then x :: y :: ys
    else if less y x then y :: btreeReplaceOrInsert less x ys
    else x :: ys

/-- google/btree `Delete` on the sorted-list model: remove the element that is
equal to the key under the order, if present. -/
def btreeDelete {α : Type} (less : α → α → Bool) (x : α) : List α → List α
  | [] => []
  | y :: ys =>
    if less x y then y :: ys
    else if less y x then y :: btreeDelete less x ys
    else ys

/-- google/btree `DeleteMin` on the sorted-list model: return and remove the
least element. -/
def btreeDeleteMin {α : Type} : List α → Option α × List α
  | [] => (none, [])
  | y :: ys => (some y, ys)

/-- google/btree `AscendGreaterOrEqual` visits the elements that are not below
the pivot, in ascending order; on the sorted-list model that is a filter. -/
def btreeAscendGE {α : Type} (less : α → α → Bool) (pivot : α) (l : List α) : List α :=
  l.filter (fun y => !less y pivot)

/-- `maxWaitTime = 1000000 * time.Hour` (line 71), in seconds. -/
def maxWaitTimeSec : Int := 1000000 * 3600

/-- `cancelTimeOut = 30 * time.Second` (line 13), in seconds. -/
def cancelTimeOutSec : Int := 30

/-- `defaultMaxRunsOutstanding = 1 << 16` (line 15). -/
def defaultMaxRunsOutstanding : Nat := 65536

/-- `TreeScheduler` state (lines 29-42): the two btrees, the `nextTime` side
map (an association list), the armed wake time `when` and the timer deadline.
The executor, error handler, channels and wait group are threaded through the
operations instead of being stored. -/
structure TreeScheduler where
  scheduled : List item
  running : List runningItem
  nextTime : List (ID × Int)
  when : Int
  timer : Int

/-- Lookup in the `nextTime` map, `nextTime[taskID]` with its ok-flag. -/
def lookupNextTime (m : List (ID × Int)) (id : ID) : Option Int :=
  (m.find? (fun p => p.1 == id)).map (fun p => p.2)

/-- `NewScheduler` state initialisation (lines 102-120): empty trees, the
`nextTime` map is never initialised (so it is empty and, as nothing in the
file ever writes to it, stays empty), `when` and the timer are armed to
`now + maxWaitTime`. -/
def NewScheduler (now : Int) : TreeScheduler :=
  { scheduled := [], running := [], nextTime := [],
    when := now + maxWaitTimeSec, timer := now + maxWaitTimeSec }

/-- `When` (lines 204-209): returns the armed wake time `s.when`. -/
def When (s : TreeScheduler) : Int := s.when

/-- Iterator body of `clearTask` (lines 46-55) applied by
`AscendGreaterOrEqual` in `Release`: walk the ascending sequence of entries at
or above the pivot `runningItem{taskID: taskID}` (a snapshot of the tree at
the start of the scan), stop at the first entry of another task, and for each
match delete `runningItem{taskID: taskID}` — whose `runID` is the zero value
0 — from the tree.  The recorded cancel functions are never invoked. -/
def clearTaskGo (taskID : ID) : List runningItem → List runningItem → List runningItem
  | [], tree => tree
  | r :: rest, tree =>
    if r.taskID == taskID then
      clearTaskGo taskID rest (btreeDelete runningItem.Less ⟨0, 0, taskID⟩ tree)
    else tree

/-- The `AscendGreaterOrEqual(runningItem{taskID: taskID}, s.clearTask(taskID))`
call of `Release` (line 228). -/
def clearTask (running : List runningItem) (taskID : ID) : List runningItem :=
  clearTaskGo taskID (btreeAscendGE runningItem.Less ⟨0, 0, taskID⟩ running) running

/-- `Release` (lines 214-230).  Looks the task up in the `nextTime` map; when
absent it returns with no change (and the Go function returns a nil error).
When present it deletes the scheduled entry rebuilt from the side map and runs
the `clearTask` scan.  The second component lists the cancel tags that were
invoked: it is `[]` on every path, because `clearTask` never calls the
recorded cancel functions. -/
def Release (s : TreeScheduler) (taskID : ID) : TreeScheduler × List CancelTag :=
  match lookupNextTime s.nextTime taskID with
  | none => (s, [])
  | some nextTime =>
    let sch := btreeDelete item.Less
      { cron := zeroCron, next := nextTime, nonce := 0, offset := 0, id := taskID } s.scheduled
    let run := clearTask s.running taskID
    ({ s with scheduled := sch, running := run }, [])

/-- `Schedule` (lines 233-272).  Parses the cron expression (the parser is the
external collaborator, passed in), computes the first instant
`next(since) + offset`, and looks the task up in the `nextTime` map.  The map
is never written, so the lookup fails and the function always takes the early
branch that only inserts into the scheduled tree; the timer-rearm branch
(guarded by `s.when.Before(nt)`, i.e. rearm when the new instant is *later*)
and the delete of the old entry are unreachable from states the constructor
produces.  Returns the state and the Go error value. -/
def Schedule (parseUTC : String → Except String CronSched) (s : TreeScheduler)
    (id : ID) (cronString : String) (offset : Int) (since : Int) :
    TreeScheduler × Option String :=
  match parseUTC cronString with
  | Except.error e => (s, some e)
  | Except.ok crSch =>
    match crSch.next since with
    | (_, some e) => (s, some e)
    | (nt, none) =>
      let it : item := { cron := crSch, next := nt + offset, nonce := 0, offset := 0, id := id }
      match lookupNextTime s.nextTime id with
      | none =>
        ({ s with scheduled := btreeReplaceOrInsert item.Less it s.scheduled }, none)
      | some nextTime =>
        let s1 := if s.when < nt then { s with when := nt, timer := nt } else s
        let sch := btreeDelete item.Less
          { cron := zeroCron, next := nextTime, nonce := 0, offset := 0, id := id } s1.scheduled
        ({ s1 with scheduled := btreeReplaceOrInsert item.Less it sch }, none)

/-- Accumulation performed by the iterator closure of `runs` (lines 57-69)
over the visited ascending sequence, into its captured variable `acc`:
collect `runID`s while the visited entry's task matches, stop at the first
entry whose task differs, no truncation to `limit`. -/
def runsCollect (taskID : ID) : List runningItem → List ID
  | [] => []
  | r :: rest => if r.taskID == taskID then r.runID :: runsCollect taskID rest else []

/-- `runs` (lines 57-69) returns the iterator closure together with the value
of the accumulator at return time: `make([]ID, 0, limit)`, a slice of length
zero.  Go copies the slice header on return; the closure's
`acc = append(acc, ...)` reassigns only its captured variable, so the copy
handed to the caller never sees the appends.  The closure's internal
accumulation over a visited sequence is `runsCollect`. -/
def runs (taskID : ID) (limit : Nat) : (List runningItem → List ID) × List ID :=
  (fun visited => runsCollect taskID visited, [])

/-- `Runs` (lines 274-280): obtains `(iter, acc)` from `runs`, scans the
running tree ascending from the pivot `runningItem{taskID: 0}` — the global
minimum, not the requested task — with the iterator, whose accumulation goes
into the closure's captured variable and is lost, and returns `acc`: the
empty slice, on every input. -/
def Runs (s : TreeScheduler) (taskID : ID) (limit : Nat) : List ID :=
  let p := runs taskID limit
  let _scanned := p.1 (btreeAscendGE runningItem.Less { cancel := 0, runID := 0, taskID := 0 } s.running)
  p.2

/-- The executor's promise (`Promise`): its `ID()`, its recorded `Cancel`
function (as a tag) and the value of `Error()` observed after `Done()`
(`none` for a successful run). -/
structure Promise where
  id : ID
  cancel : CancelTag
  result : Option String

/-- One invocation of the error handler `onErr(ctx, taskID, runID,
scheduledAt, err)`. -/
structure ErrCall where
  taskID : ID
  runID : ID
  scheduledAt : Int
  err : String

/-- Outcome of one `<-s.timer.C` iteration of the dispatch loop: the state
after the iteration, the `onErr` invocations it made, the promise whose
waiter goroutine it spawned (if any), and whether the iteration panicked. -/
structure DispatchResult where
  state : TreeScheduler
  errCalls : List ErrCall
  spawned : Option Promise
  panicked : Bool

/-- One `<-s.timer.C` iteration of the dispatch loop inside `NewScheduler`
(lines 130-184).  `DeleteMin` pops the earliest entry (rearming the timer to
`maxWaitTime` when the tree is empty).  The executor is called with the
popped instant.  On a nil synchronous error the cron schedule is advanced —
the returned time is stored into `it.next` even when the advance fails — and
on a failed advance the nonce is bumped and `onErr` is called with
`prom.ID()`: when the promise is nil that method call on a nil interface
panics before `onErr` runs and before the entry is reinserted.  Otherwise the
entry is reinserted; a nil promise ends the iteration, a non-nil one is
recorded in the running tree and its waiter is spawned.  On a synchronous
executor error `onErr` is called with runID 0 and the popped entry is not
reinserted. -/
def dispatchOnTimerFire (s : TreeScheduler) (now : Int)
    (executor : ID → Int → Except String (Option Promise)) : DispatchResult :=
  match btreeDeleteMin s.scheduled with
  | (none, _) =>
    { state := { s with timer := now + maxWaitTimeSec }, errCalls := [], spawned := none, panicked := false }
  | (some it, rest) =>
    let s1 := { s with scheduled := rest }
    match executor it.id it.next with
    | Except.ok prom =>
      match it.cron.next it.next with
      | (t, some e) =>
        let it2 : item := { it with next := t, nonce := it.nonce + 1 }
        match prom with
        | none =>
          { state := s1, errCalls := [], spawned := none, panicked := true }
        | some p =>
          let s2 := { s1 with scheduled := btreeReplaceOrInsert item.Less it2 s1.scheduled }
          let ri : runningItem := { cancel := p.cancel, runID := p.id, taskID := it2.id }
          let s3 := { s2 with running := btreeReplaceOrInsert runningItem.Less ri s2.running }
          { state := s3,
            errCalls := [{ taskID := it2.id, runID := p.id, scheduledAt := it2.next, err := e }],
            spawned := some p, panicked := false }
      | (t, none) =>
        let it1 : item := { it with next := t }
        let s2 := { s1 with scheduled := btreeReplaceOrInsert item.Less it1 s1.scheduled }
        match prom with
        | none => { state := s2, errCalls := [], spawned := none, panicked := false }
        | some p =>
          let ri : runningItem := { cancel := p.cancel, runID := p.id, taskID := it1.id }
          let s3 := { s2 with running := btreeReplaceOrInsert runningItem.Less ri s2.running }
          { state := s3, errCalls := [], spawned := some p, panicked := false }
    | Except.error e =>
      { state := s1,
        errCalls := [{ taskID := it.id, runID := 0, scheduledAt := it.next, err := e }],
        spawned := none, panicked := false }

/-- The per-run waiter goroutine (lines 164-180) after `<-prom.Done()`:
when `prom.Error()` is non-nil it calls `onErr` and returns — the running
entry is *not* deleted on this path; on a nil error it deletes the running
entry. -/
def runWaiter (s : TreeScheduler) (it : item) (prom : Promise) : TreeScheduler × List ErrCall :=
  match prom.result with
  | some err => (s, [{ taskID := it.id, runID := prom.id, scheduledAt := it.next, err := err }])
  | none =>
    let ri : runningItem := { cancel := prom.cancel, runID := prom.id, taskID := it.id }
    ({ s with running := btreeDelete runningItem.Less ri s.running }, [])

/-- The spec's strict lexicographic order on
`(nextFireUnixSeconds, nonce, taskID)`, written from the spec's words, to be
compared with the source's `item.Less`. -/
def specLexLt (a b : item) : Prop :=
  a.next < b.next ∨ (a.next = b.next ∧ (a.nonce < b.nonce ∨ (a.nonce = b.nonce ∧ a.id < b.id)))

/-- Sortedness of the scheduled tree's list model under `item.Less`. -/
def ScheduledSorted (l : List item) : Prop :=
  l.Pairwise (fun a b => a.Less b = true)

/-- Concrete cron collaborator for `* * * * *`: the next firing is one minute
after the given instant. -/
def cronEveryMinute : CronSched := ⟨fun t => (t + 60, none)⟩

/-- Concrete cron collaborator whose advance always fails (no viable instant
before the horizon); the Go pattern still returns the zero time's unix
seconds alongside the error. -/
def cronNoFuture : CronSched := ⟨fun _ => (-62135596800, some "no future firing")⟩

/-- Concrete model of the external `cron.ParseUTC` collaborator: it accepts
the expression `* * * * *` and rejects everything else. -/
def parseStd : String → Except String CronSched := fun str =>
  if str = "* * * * *" then Except.ok cronEveryMinute else Except.error "invalid cron"

/-- A running entry for task 5, run 10, with recorded cancel tag 7. -/
def runT5 : runningItem := { cancel := 7, runID := 10, taskID := 5 }

/-- A scheduler state holding exactly one in-flight run, `runT5`, as left by a
dispatch that recorded the run (the `nextTime` map is empty in every state the
code can produce, since nothing ever writes to it). -/
def sRun5 : TreeScheduler :=
  { scheduled := [], running := [runT5], nextTime := [],
    when := maxWaitTimeSec, timer := maxWaitTimeSec }

/-- State whose running tree holds runs of two distinct tasks:
task 1 run 10 and task 2 run 20. -/
def sTwoTasks : TreeScheduler :=
  { scheduled := [], running := [⟨1, 10, 1⟩, ⟨2, 20, 2⟩], nextTime := [],
    when := maxWaitTimeSec, timer := maxWaitTimeSec }

/-- State whose running tree holds two runs of the same task 1:
run 10 and run 11. -/
def sTwoRuns : TreeScheduler :=
  { scheduled := [], running := [⟨1, 10, 1⟩, ⟨3, 11, 1⟩], nextTime := [],
    when := maxWaitTimeSec, timer := maxWaitTimeSec }

/-- The promise of a run of task 5 that completed with an error. -/
def promFailed : Promise := { id := 10, cancel := 7, result := some "run failed" }

/-- The scheduled entry of task 5 captured by the waiter of `promFailed`. -/
def itemT5 : item := { cron := cronEveryMinute, next := 120, nonce := 0, offset := 0, id := 5 }

/-- A scheduled entry for task 1 due at unix second 60. -/
def itemT1 : item := { cron := cronEveryMinute, next := 60, nonce := 0, offset := 0, id := 1 }

/-- A scheduler state with exactly `itemT1` pending. -/
def sOneTask : TreeScheduler :=
  { scheduled := [itemT1], running := [], nextTime := [],
    when := maxWaitTimeSec, timer := maxWaitTimeSec }

/-- An executor that fails synchronously on every invocation. -/
def execSyncFail : ID → Int → Except String (Option Promise) := fun _ _ =>
  Except.error "executor failure"

/-- A fire-and-forget executor: no error and a nil promise handle. -/
def execFireAndForget : ID → Int → Except String (Option Promise) := fun _ _ =>
  Except.ok none

/-- A scheduled entry for task 1 whose cron schedule has no future firing. -/
def itemHorizon : item := { cron := cronNoFuture, next := 60, nonce := 0, offset := 0, id := 1 }

/-- A scheduler state with exactly `itemHorizon` pending. -/
def sHorizon : TreeScheduler :=
  { scheduled := [itemHorizon], running := [], nextTime := [],
    when := maxWaitTimeSec, timer := maxWaitTimeSec }

/-- Two scheduled entries due at the same instant with equal nonces and
distinct task ids, for the order witness. -/
def itemA : item := { cron := zeroCron, next := 5, nonce := 0, offset := 0, id := 1 }

/-- See `itemA`. -/
def itemB : item := { cron := zeroCron, next := 5, nonce := 0, offset := 0, id := 2 }

/-- The source's `item.Less` agrees with the spec's strict lexicographic
order on `(next, nonce, id)`. -/
theorem item_Less_iff_specLexLt (a b : item) : a.Less b = true ↔ specLexLt a b := by
  simp only [item.Less, specLexLt, Bool.or_eq_true, Bool.and_eq_true,
    decide_eq_true_eq, beq_iff_eq]

/-- Claim C1: the claim says `Schedule(id, expr, off, t)` followed immediately
by `Release(id)` leaves the scheduler externally indistinguishable from one on
which neither was called.  On the code this fails: `Schedule` never writes the
`nextTime` side map, so `Release` finds no entry and returns without deleting;
after Schedule(1, "* * * * *", 0, 0) then Release(1) the Scheduled Index
still holds the entry for task 1, while the untouched scheduler's index is
empty, and Release invoked no cancel function. -/
theorem C1_schedule_release_residue :
    (Release (Schedule parseStd (NewScheduler 0) 1 "* * * * *" 0 0).1 1).1.scheduled.map item.id
      = [1] ∧
    (NewScheduler 0).scheduled.map item.id = [] ∧
    (Release (Schedule parseStd (NewScheduler 0) 1 "* * * * *" 0 0).1 1).2 = [] := by
  refine ⟨by decide, by decide, by decide⟩

/-- Claim C2: the claim says that after any sequence of Schedule/Release the
Scheduled Index and the Next-Fire Side Index agree.  On the code this fails
after a single `Schedule`: the scheduled tree holds the entry for task 1 at
instant 60 but the `nextTime` map is empty, because `Schedule` never writes
it. -/
theorem C2_side_index_disagrees :
    (Schedule parseStd (NewScheduler 0) 1 "* * * * *" 0 0).1.scheduled.map item.id = [1] ∧
    (Schedule parseStd (NewScheduler 0) 1 "* * * * *" 0 0).1.scheduled.map item.next = [60] ∧
    (Schedule parseStd (NewScheduler 0) 1 "* * * * *" 0 0).1.nextTime = [] := by
  refine ⟨by decide, by decide, by decide⟩

/-- Claim C3: the claim says `Release(taskID)` invokes the recorded cancel
function of every running entry of the task and removes those entries.  On the
code this fails: with a run of task 5 in flight (cancel tag 7, run 10),
`Release 5` invokes no cancel function and leaves the Running Registry — and
the whole state — untouched, because the `nextTime` map is never populated so
`Release` returns at the failed lookup; moreover `clearTask` contains no call
to the recorded cancel functions at all. -/
theorem C3_release_cancels_nothing :
    Release sRun5 5 = (sRun5, []) := rfl

/-- Claim C4: the claim says that registering an entry whose first fire
instant is earlier than the armed wake time (in particular on a previously
empty index armed at the far-future sentinel) stops and rearms the timer so
that `When()` returns the new head.  On the code this fails: with the index
empty and `when` at the sentinel `0 + maxWaitTime`, scheduling task 1 due at
instant 60 leaves both `when` and the timer at the sentinel — the rearm
branch of `Schedule` sits behind the never-populated `nextTime` lookup (and
its guard `s.when.Before(nt)` is inverted besides) — even though the new head
instant 60 is strictly earlier than the sentinel. -/
theorem C4_when_not_rearmed :
    When (Schedule parseStd (NewScheduler 0) 1 "* * * * *" 0 0).1 = maxWaitTimeSec ∧
    (Schedule parseStd (NewScheduler 0) 1 "* * * * *" 0 0).1.timer = maxWaitTimeSec ∧
    (Schedule parseStd (NewScheduler 0) 1 "* * * * *" 0 0).1.scheduled.map item.next = [60] ∧
    (60 : Int) < maxWaitTimeSec := by
  refine ⟨by decide, by decide, by decide, by decide⟩

/-- Claim C5: the claim says `Runs(taskID, limit)` returns exactly the runIDs
of the task, ascending, truncated to `limit`.  On the code this fails on
every registry that holds a run: `runs` hands `Runs` the accumulator's slice
header before the scan, of length zero, and the iterator's appends reassign
only the closure's captured variable, so `Runs` returns the empty slice on
every input — here `Runs 2 10` returns `[]` though run 20 of task 2 is in
flight, and `Runs 1 1` returns `[]` though runs 10 and 11 of task 1 are. -/
theorem C5_runs_always_empty :
    Runs sTwoTasks 2 10 = [] ∧ Runs sTwoRuns 1 1 = [] ∧
    sTwoTasks.running.map runningItem.runID = [10, 20] ∧
    sTwoRuns.running.map runningItem.runID = [10, 11] := by
  refine ⟨by decide, by decide, by decide, by decide⟩

/-- Claim C6: the claim says that when a handle completes with an error the
waiter reports it via the error handler and the Running Entry is removed.  On
the code the report happens but the removal does not: the waiter returns right
after `onErr`, and the delete of the running entry is only on the success
path, so the entry of task 5 run 10 stays in the registry. -/
theorem C6_failed_run_entry_retained :
    (runWaiter sRun5 itemT5 promFailed).2
      = [{ taskID := 5, runID := 10, scheduledAt := 120, err := "run failed" }] ∧
    (runWaiter sRun5 itemT5 promFailed).1.running = [runT5] := by
  exact ⟨rfl, rfl⟩

/-- Claim C7: the claim says a synchronous executor error is reported via the
error handler with runID 0 and the task's entry is reinserted at its next
instant rather than dropped.  On the code the report carries runID 0 as
claimed, but the entry popped by `DeleteMin` is never reinserted in the
synchronous-error branch: after the dispatch iteration the Scheduled Index is
empty and the task is silently dropped. -/
theorem C7_sync_failure_drops_task :
    (dispatchOnTimerFire sOneTask 0 execSyncFail).errCalls
      = [{ taskID := 1, runID := 0, scheduledAt := 60, err := "executor failure" }] ∧
    (dispatchOnTimerFire sOneTask 0 execSyncFail).state.scheduled = [] ∧
    (dispatchOnTimerFire sOneTask 0 execSyncFail).panicked = false := by
  exact ⟨rfl, rfl, rfl⟩

/-- Claim C8: the `Less` ordering of the scheduled tree is the strict
lexicographic order on `(nextFireUnixSeconds, nonce, taskID)`; popping the
minimum of a tree sorted by it yields an entry below every remaining one in
that order; and at equal instants and equal nonces the smaller taskID is
dispatched first. -/
theorem C8_less_is_lex_and_popmin_least :
    (∀ a b : item, a.Less b = true ↔ specLexLt a b) ∧
    (∀ (l rest : List item) (it : item), ScheduledSorted l →
      btreeDeleteMin l = (some it, rest) → ∀ x ∈ rest, specLexLt it x) ∧
    (∀ a b : item, a.next = b.next → a.nonce = b.nonce → a.id < b.id →
      a.Less b = true) := by
  refine ⟨item_Less_iff_specLexLt, ?_, ?_⟩
  · intro l rest it hs hpop x hx
    cases l with
    | nil => simp [btreeDeleteMin] at hpop
    | cons y ys =>
      simp only [btreeDeleteMin, Prod.mk.injEq, Option.some.injEq] at hpop
      obtain ⟨h1, h2⟩ := hpop
      rw [h1, h2] at hs
      exact (item_Less_iff_specLexLt it x).mp ((List.pairwise_cons.mp hs).1 x hx)
  · intro a b h1 h2 h3
    exact (item_Less_iff_specLexLt a b).mpr (Or.inr ⟨h1, Or.inr ⟨h2, h3⟩⟩)

/-- Witness for C8: the two-entry tree `[itemA, itemB]` (same instant, same
nonce, ids 1 and 2) is sorted, and popping its minimum yields `itemA`, which
is below `itemB` in the spec's lexicographic order. -/
theorem C8_less_is_lex_and_popmin_least_witness :
    ScheduledSorted [itemA, itemB] ∧ specLexLt itemA itemB := by
  have hs : ScheduledSorted [itemA, itemB] := by
    refine List.Pairwise.cons ?_ (List.pairwise_singleton _ _)
    intro b hb
    rw [List.mem_singleton] at hb
    subst hb
    decide
  exact ⟨hs, C8_less_is_lex_and_popmin_least.2.1 [itemA, itemB] [itemB] itemA hs rfl itemB
    (List.mem_singleton.mpr rfl)⟩

/-- Claim C9: a malformed cron expression makes `Schedule` return the parse
error synchronously with the task not registered and the whole state — the
Scheduled Index, the side map, the armed wake time, the timer and the Running
Registry — unchanged, for every parser collaborator, scheduler state and
argument vector. -/
theorem C9_invalid_cron_atomic (parseUTC : String → Except String CronSched)
    (s : TreeScheduler) (id : ID) (cronString : String) (offset since : Int)
    (e : String) (hparse : parseUTC cronString = Except.error e) :
    Schedule parseUTC s id cronString offset since = (s, some e) := by
  simp [Schedule, hparse]

/-- Witness for C9: the model parser rejects "not a cron", and `Schedule` on a
fresh scheduler returns that error with the state unchanged. -/
theorem C9_invalid_cron_atomic_witness :
    parseStd "not a cron" = Except.error "invalid cron" ∧
    Schedule parseStd (NewScheduler 0) 1 "not a cron" 0 0
      = (NewScheduler 0, some "invalid cron") := by
  exact ⟨rfl, C9_invalid_cron_atomic parseStd (NewScheduler 0) 1 "not a cron" 0 0
    "invalid cron" rfl⟩

/-- Claim C10: the claim says that when the executor returns a nil handle with
a nil error and the cron advance for the popped entry then fails, the dispatch
iteration completes — bumping the nonce, reporting through the error handler
and reinserting the entry — without reading an ID from the absent handle.  On
the code this fails: `prom.ID()` is evaluated as an argument of `onErr` while
`prom` is the nil interface, so the dispatch goroutine panics before the
handler runs and before the entry is reinserted; the iteration ends with no
error report and an empty Scheduled Index. -/
theorem C10_nil_promise_cron_error_panics :
    (dispatchOnTimerFire sHorizon 0 execFireAndForget).panicked = true ∧
    (dispatchOnTimerFire sHorizon 0 execFireAndForget).errCalls = [] ∧
    (dispatchOnTimerFire sHorizon 0 execFireAndForget).state.scheduled.map item.id = [] := by
  exact ⟨rfl, rfl, rfl⟩

end TreeSched
